import Mathlib

/-!
Verification development for the ffplayout engine player loop
(`src/engine/src/player/output/mod.rs`).

The player loop is embedded shallowly: the decoder command construction is
a pure function over the configuration and node data; the pump loop and the
outer node loop are modelled as functions from input scripts (the sequence
of read results, liveness-flag observations and spawn outcomes the real
program would receive from its environment) to the ordered list of
observable actions the code performs, plus the function's return outcome.
-/

namespace FFPlayout

/-- A filter object attached to a node; `cmd()` and `map()` each yield an
argument list (`node.filter` in the source). -/
structure Filters where
  cmd : List String
  map : List String
deriving DecidableEq, Repr

/-- A playout node as consumed by the player loop: the decoder argument
tokens (absent = end-of-schedule sentinel), the skip flag, and the optional
filter object.  Other node fields (source, seek, out, audio, index) are
only logged and do not influence control flow. -/
structure Node where
  cmd : Option (List String)
  skip : Bool
  filter : Option Filters
deriving DecidableEq, Repr

/-- The configuration fields read by the decoder-command builder:
`config.logging.ffmpeg_level`, `config.advanced.decoder.input_cmd`,
`config.processing.vtt_enable`, `config.processing.cmd`. -/
structure Config where
  ffmpegLevel : String
  decoderInputCmd : Option (List String)
  vttEnable : Bool
  processingCmd : Option (List String)
deriving DecidableEq, Repr

/-- Rust's `str::ends_with(pat)`: does the string end with the given
suffix?  Embedded as a suffix test on the character list, which agrees
with Rust's byte-level test on valid UTF-8. -/
def rsEndsWith (s suffix : String) : Bool :=
  suffix.data.isSuffixOf s.data

/-- Rust's `str::to_lowercase`, embedded as a character-wise lowercase
map (the configured ffmpeg levels are plain ASCII words). -/
def rsToLowercase (s : String) : String :=
  String.mk (s.data.map Char.toLower)

/-- `format!("level+{}", config.logging.ffmpeg_level.to_lowercase())`. -/
def ffLogFormat (c : Config) : String :=
  "level+" ++ rsToLowercase c.ffmpegLevel

/-- The decoder argument list built at lines 134-159 of
`player/output/mod.rs`, translated step by step:
start from the fixed prefix, append the configured decoder input prefix if
present, append the node command, append filter cmd and map if a filter is
present, then — if vtt is enabled and any accumulated argument ends with
".vtt" — append the subtitle mapping whose index is the count of "-i"
occurrences in the accumulated list minus one (saturating), and finally
extend with the configured processing command. -/
def buildDecCmd (c : Config) (cmd : List String) (filter : Option Filters) :
    List String :=
  let dec1 := ["-hide_banner", "-nostats", "-v", ffLogFormat c]
  let dec2 :=
    match c.decoderInputCmd with
    | some pre => dec1 ++ pre
    | none => dec1
  let dec3 := dec2 ++ cmd
  let dec4 :=
    match filter with
    | some f => dec3 ++ f.cmd ++ f.map
    | none => dec3
  let dec5 :=
    if c.vttEnable && dec4.any (fun s => rsEndsWith s ".vtt") then
      let i := (dec4.filter (fun n => n == "-i")).length - 1
      dec4 ++ ["-map", toString i ++ ":s", "-c:s", "copy"]
    else dec4
  match c.processingCmd with
  | some pc => dec5 ++ pc
  | none => dec5

/-- The program name passed to `Command::new` for the decoder. -/
def decoderProgram : String := "ffmpeg"

/-- The argument lists a node's filter contributes: `filter.cmd()` then
`filter.map()`, or nothing when the node has no filter. -/
def filterArgs : Option Filters → List String
  | some f => f.cmd ++ f.map
  | none => []

/-- The decoder command layout as the specification words it
(spec §6, "Subprocess command layout (decoder)"): one concatenation of the
fixed prefix, the configured decoder-input prefix args, the node's command
tokens, filter-cmd then filter-map args, the optional
`-map <i>:s -c:s copy` block with `<i> = max(0, count(-i) - 1)` — written
here with saturating Nat subtraction, which equals that max — added exactly
when vtt is enabled and some argument ends with ".vtt", and the configured
tail args. -/
def specDecCmd (c : Config) (cmd : List String) (filter : Option Filters) :
    List String :=
  let fixed := ["-hide_banner", "-nostats", "-v",
    "level+" ++ rsToLowercase c.ffmpegLevel]
  let pre := c.decoderInputCmd.getD []
  let fargs := filterArgs filter
  let base := fixed ++ pre ++ cmd ++ fargs
  let vttBlock :=
    if c.vttEnable && base.any (fun s => rsEndsWith s ".vtt") then
      ["-map", toString ((base.filter (fun n => n == "-i")).length - 1) ++ ":s",
        "-c:s", "copy"]
    else []
  base ++ vttBlock ++ c.processingCmd.getD []

/-- Result of one `read` call on a child pipe: a chunk of bytes (empty =
the read returned 0), or an I/O error (which the code propagates via `?`). -/
inductive RdRes where
  | ok (c : List Nat)
  | err
deriving DecidableEq, Repr

/-- The environment of one pump-loop iteration: the value
`ingest_is_alive.load` returns at the top, whether `*ingest_stdout_guard`
is `Some`, and the result the single `read` of this iteration would
return (from the ingest stream or from the decoder stdout, whichever
branch is taken). -/
structure PumpIter where
  ingestAlive : Bool
  ingestPresent : Bool
  rd : RdRes
deriving DecidableEq, Repr

/-- Observable actions of the pump loop, in program order: stopping the
decoder, mutating `live_on` and `list_init`, acquiring and releasing the
`ingest_stdout` lock, reading a chunk from ingest or decoder, and writing
a chunk to the encoder writer. -/
inductive Act where
  | stopDec
  | setLiveOn
  | storeListInit
  | setLiveOff
  | lockAcq
  | lockRel
  | readI (c : List Nat)
  | readIErr
  | readD (c : List Nat)
  | readDErr
  | writeE (c : List Nat)
deriving DecidableEq, Repr

/-- How a pump-loop iteration ends: fall through to the next iteration,
`break`, or propagate an error out of `player` via `?`. -/
inductive SOut where
  | cont
  | brk
  | err
deriving DecidableEq, Repr

/-- One iteration of the pump loop (lines 182-220 of
`player/output/mod.rs`), given the current `live_on` and the iteration's
environment.  Returns the ordered actions performed, the new `live_on`,
and how the iteration ended.  The `ingest_stdout_guard` is dropped when
control leaves the `if ingest_is_alive` block — after the `write_all` on
the non-empty-read path, and during unwinding on the `break` and `?`
paths — so `lockRel` is emitted at scope exit, never before the write. -/
def pumpStep (liveOn : Bool) (it : PumpIter) : List Act × Bool × SOut :=
  if it.ingestAlive then
    let pre := if liveOn then [] else [Act.stopDec, Act.setLiveOn, Act.storeListInit]
    if it.ingestPresent then
      match it.rd with
      | RdRes.err => (pre ++ [Act.lockAcq, Act.readIErr, Act.lockRel], true, SOut.err)
      | RdRes.ok c =>
        if c.isEmpty then
          (pre ++ [Act.lockAcq, Act.readI c, Act.lockRel], true, SOut.brk)
        else
          (pre ++ [Act.lockAcq, Act.readI c, Act.writeE c, Act.lockRel], true, SOut.cont)
    else
      (pre ++ [Act.lockAcq, Act.lockRel], true, SOut.cont)
  else
    if liveOn then
      ([Act.setLiveOff], false, SOut.brk)
    else
      match it.rd with
      | RdRes.err => ([Act.readDErr], false, SOut.err)
      | RdRes.ok c =>
        if c.isEmpty then
          ([Act.readD c], false, SOut.brk)
        else
          ([Act.readD c, Act.writeE c], false, SOut.cont)

/-- How a whole pump-loop run ends: it broke out (EOF, ingest handover),
it propagated an error, or the finite input script ran out (a model
artifact: the real loop would block on the next read). -/
inductive PumpRes where
  | broke
  | errored
  | ranOut
deriving DecidableEq, Repr

/-- The pump loop: iterate `pumpStep` over the script until an iteration
breaks or errors, accumulating actions in order. -/
def pumpRun (liveOn : Bool) : List PumpIter → List Act × Bool × PumpRes
  | [] => ([], liveOn, PumpRes.ranOut)
  | it :: rest =>
    let s := pumpStep liveOn it
    match s.2.2 with
    | SOut.cont =>
      let r := pumpRun s.2.1 rest
      (s.1 ++ r.1, r.2.1, r.2.2)
    | SOut.brk => (s.1, s.2.1, PumpRes.broke)
    | SOut.err => (s.1, s.2.1, PumpRes.errored)

/-- The chunks written to the encoder writer, extracted from an action
trace in order. -/
def writesOf : List Act → List (List Nat)
  | [] => []
  | Act.writeE c :: rest => c :: writesOf rest
  | _ :: rest => writesOf rest

/-- The chunks read from the decoder stdout, extracted from an action
trace in order. -/
def readsDOf : List Act → List (List Nat)
  | [] => []
  | Act.readD c :: rest => c :: readsDOf rest
  | _ :: rest => readsDOf rest

/-- The environment of one outer-loop iteration: the node yielded by the
source iterator, the value `is_alive.load` returns at the top-of-iteration
check, whether `Command::new("ffmpeg")...spawn()` succeeds, and the pump
loop's input script for this node. -/
structure LoopIter where
  node : Node
  alive : Bool
  spawnOk : Bool
  script : List PumpIter
deriving DecidableEq, Repr

/-- Observable events of the outer player loop, in program order:
publishing a node into `current_media`, a failed decoder spawn (whose
error the `?` propagates), a successful decoder spawn with its program
and argument list, and the pump actions. -/
inductive OEvent where
  | publish (n : Node)
  | spawnFailed
  | spawnDec (prog : String) (args : List String)
  | pact (a : Act)
deriving DecidableEq, Repr

/-- The outer player loop (lines 81-226 of `player/output/mod.rs`) over a
script of iterations, carrying `live_on` across nodes.  Per iteration, in
code order: publish the node into `current_media`; break if `is_alive` is
false; break if `node.cmd` is `None`; continue if `node.skip`; build the
decoder command and spawn (a spawn failure returns the error via `?`);
run the pump loop; a pump error returns via `?`, otherwise recurse on the
remaining nodes.  Returns the ordered events and whether the function
returns `Ok` (`true`) or an error (`false`). -/
def playerLoop (cfg : Config) : Bool → List LoopIter → List OEvent × Bool
  | _, [] => ([], true)
  | liveOn, it :: rest =>
    if it.alive = false then
      ([OEvent.publish it.node], true)
    else
      match it.node.cmd with
      | none => ([OEvent.publish it.node], true)
      | some cmd =>
        if it.node.skip then
          let r := playerLoop cfg liveOn rest
          (OEvent.publish it.node :: r.1, r.2)
        else if it.spawnOk = false then
          ([OEvent.publish it.node, OEvent.spawnFailed], false)
        else
          let sp := OEvent.spawnDec decoderProgram (buildDecCmd cfg cmd it.node.filter)
          let p := pumpRun liveOn it.script
          match p.2.2 with
          | PumpRes.errored =>
            (OEvent.publish it.node :: sp :: p.1.map OEvent.pact, false)
          | _ =>
            let r := playerLoop cfg p.2.1 rest
            (OEvent.publish it.node :: sp :: p.1.map OEvent.pact ++ r.1, r.2)

/-- Whether an outer-loop event is a decoder spawn. -/
def OEvent.isSpawn : OEvent → Bool
  | OEvent.spawnDec _ _ => true
  | _ => false

/-- The output modes (`config.output.mode`), one of
desktop, hls, null, stream. -/
inductive OutputMode where
  | desktop
  | hls
  | null
  | stream
deriving DecidableEq, Repr

/-- An encoder child as the player needs it: whether its stdin and stderr
pipes were captured (both are taken with `.take().unwrap()`). -/
structure EncProc where
  stdinPiped : Bool
  stderrPiped : Bool
deriving DecidableEq, Repr

/-- Modelled from the spec: the per-mode encoder constructors
`desktop::output`, `null::output`, `stream::output` live in files outside
the excerpt; spec §4.4 says each "produces one encoder child with stdin
piped, stderr piped". -/
def modeOutput : EncProc := EncProc.mk true true

/-- The encoder-spawn match at player startup (lines 56-61 of
`player/output/mod.rs`): `Desktop`, `Null` and `Stream` call the mode's
`output()`; every other mode — i.e. `Hls` — falls to the wildcard arm,
which aborts the task ("Output mode doesn't exists!").  `none` models
that abort. -/
def spawnEncoder : OutputMode → Option EncProc
  | OutputMode.desktop => some modeOutput
  | OutputMode.null => some modeOutput
  | OutputMode.stream => some modeOutput
  | OutputMode.hls => none

/-- tokio's default buffer capacity for a buffered writer
(`DEFAULT_BUF_SIZE`, 8 KiB). -/
def bufCap : Nat := 8192

/-- State of the buffered encoder writer: the bytes pending in its
internal buffer and the bytes actually delivered to the encoder child's
stdin so far. -/
structure WState where
  buffered : List Nat
  delivered : List Nat
deriving DecidableEq, Repr

/-- One `write_all` on the buffered writer, following tokio's
`BufWriter::poll_write`: if the pending buffer plus the new chunk would
exceed capacity, the pending bytes are flushed to the child stdin first;
then a chunk at least as large as the capacity is written through
directly, and a smaller one is appended to the internal buffer.
`write_all` retries until the chunk is consumed; with the inner sink
accepting whole writes that is one step. -/
def writeAllStep (s : WState) (c : List Nat) : WState :=
  let s1 :=
    if bufCap < s.buffered.length + c.length then
      WState.mk [] (s.delivered ++ s.buffered)
    else s
  if bufCap ≤ c.length then
    WState.mk s1.buffered (s1.delivered ++ c)
  else
    WState.mk (s1.buffered ++ c) s1.delivered

/-- An operation the player could perform on the encoder writer. -/
inductive WOp where
  | writeAll (c : List Nat)
  | flushOp
deriving DecidableEq, Repr

/-- Run a sequence of writer operations from a state.  `flushOp` empties
the internal buffer into the delivered stream. -/
def runWOps : WState → List WOp → WState
  | s, [] => s
  | s, WOp.writeAll c :: rest => runWOps (writeAllStep s c) rest
  | s, WOp.flushOp :: rest => runWOps (WState.mk [] (s.delivered ++ s.buffered)) rest

/-- The operations the player performs on `enc_writer` over its lifetime:
one `write_all` per chunk pumped (lines 201 and 218 of
`player/output/mod.rs`) and nothing else — in particular no flush — before
`stop_all` stops the encoder at shutdown (line 236); dropping the writer
when `player` returns does not flush either. -/
def playerWriterOps (writes : List (List Nat)) : List WOp :=
  writes.map WOp.writeAll

/-- Whether an action is a write to the encoder writer. -/
def Act.isWriteE : Act → Bool
  | Act.writeE _ => true
  | _ => false

/-- The ordering discipline asserted of an ingest-iteration action trace:
every release of the `ingest_stdout` lock precedes every write to the
encoder, i.e. the lock is never still held when the write happens. -/
def relBeforeWrite (acts : List Act) : Prop :=
  ∀ i j : Fin acts.length,
    acts.get i = Act.lockRel → (acts.get j).isWriteE = true → i.val < j.val

instance (acts : List Act) : Decidable (relBeforeWrite acts) := by
  unfold relBeforeWrite; infer_instance

/- ------------------------------------------------------------------ -/
/- Theorems                                                            -/
/- ------------------------------------------------------------------ -/

/-- The log-format token can never be the literal "-i": it always starts
with "level+". -/
theorem ffLogFormat_ne_dash_i (cfg : Config) : (ffLogFormat cfg == "-i") = false := by
  rw [beq_eq_false_iff_ne]
  intro h
  have hl := congrArg String.length h
  rw [ffLogFormat, String.length_append] at hl
  rw [show ("-i" : String).length = 2 from rfl,
    show ("level+" : String).length = 6 from rfl] at hl
  omega

/-- The decoder command built by the code agrees with the specification's
layout on every input. -/
theorem decCmd_eq_spec (cfg : Config) (cmd : List String)
    (filter : Option Filters) :
    buildDecCmd cfg cmd filter = specDecCmd cfg cmd filter := by
  unfold buildDecCmd specDecCmd ffLogFormat
  cases cfg.decoderInputCmd <;> cases filter <;> cases cfg.processingCmd <;>
    simp [filterArgs, List.append_assoc] <;> split_ifs <;>
      simp [List.append_assoc]

/-- C7: for every node that reaches decoder spawn, the spawned program is
"ffmpeg" and the decoder argument list is exactly the layout the
specification gives: the fixed prefix `-hide_banner -nostats -v
level+<lowercased level>`, the configured decoder-input prefix args, the
node's command tokens, filter-cmd then filter-map args, the conditional
`-map <i>:s -c:s copy` block, then the configured processing tail args. -/
theorem c7_decoder_cmd_layout (cfg : Config) (cmd : List String)
    (filter : Option Filters) :
    decoderProgram = "ffmpeg" ∧
    buildDecCmd cfg cmd filter = specDecCmd cfg cmd filter :=
  ⟨rfl, decCmd_eq_spec cfg cmd filter⟩

/-- C9: the ".vtt" detection and the "-i" occurrence count scan the whole
argument list accumulated so far, not only the node's command tokens: when
vtt is enabled and the configured decoder-input prefix contains an
argument ending in ".vtt", the subtitle mapping is appended even if the
node command has no such argument, and its stream index is computed from
the "-i" occurrences of the prefix, the node command and the filter args
together — "-i" occurrences contributed by the prefix raise the index. -/
theorem c9_vtt_scan_whole_list (cfg : Config) (cmd : List String)
    (filter : Option Filters) (pre : List String)
    (hv : cfg.vttEnable = true)
    (hpre : cfg.decoderInputCmd = some pre)
    (hvtt : ∃ s ∈ pre, rsEndsWith s ".vtt" = true) :
    ∃ base,
      base = ["-hide_banner", "-nostats", "-v", ffLogFormat cfg] ++ pre ++ cmd
          ++ filterArgs filter ∧
      buildDecCmd cfg cmd filter
        = base
          ++ ["-map",
              toString ((base.filter (fun n => n == "-i")).length - 1) ++ ":s",
              "-c:s", "copy"]
          ++ cfg.processingCmd.getD [] ∧
      (base.filter (fun n => n == "-i")).length
        = (pre.filter (fun n => n == "-i")).length
          + (cmd.filter (fun n => n == "-i")).length
          + ((filterArgs filter).filter (fun n => n == "-i")).length := by
  refine ⟨_, rfl, ?_, ?_⟩
  · rw [decCmd_eq_spec]
    unfold specDecCmd
    rw [hpre]
    obtain ⟨s, hs, he⟩ := hvtt
    simp [ffLogFormat, hv, List.append_assoc]
    rw [if_pos]
    · simp
    · exact Or.inr (Or.inr (Or.inr (Or.inr (Or.inl ⟨s, hs, he⟩))))
  · simp [List.filter_append, ffLogFormat_ne_dash_i cfg, List.filter]
    omega

/-- Witness for C9: a concrete configuration whose decoder-input prefix
carries the ".vtt" argument and an extra "-i", while the node command has
neither a ".vtt" argument nor more than one "-i". -/
theorem c9_vtt_witness :
    ∃ base,
      base = ["-hide_banner", "-nostats", "-v",
          ffLogFormat (Config.mk "INFO" (some ["-i", "s.vtt"]) true none)]
          ++ ["-i", "s.vtt"] ++ ["-i", "v.mp4"] ++ filterArgs none ∧
      buildDecCmd (Config.mk "INFO" (some ["-i", "s.vtt"]) true none)
          ["-i", "v.mp4"] none
        = base
          ++ ["-map",
              toString ((base.filter (fun n => n == "-i")).length - 1) ++ ":s",
              "-c:s", "copy"]
          ++ (Config.mk "INFO" (some ["-i", "s.vtt"]) true none).processingCmd.getD [] ∧
      (base.filter (fun n => n == "-i")).length
        = ((["-i", "s.vtt"] : List String).filter (fun n => n == "-i")).length
          + ((["-i", "v.mp4"] : List String).filter (fun n => n == "-i")).length
          + ((filterArgs none).filter (fun n => n == "-i")).length :=
  c9_vtt_scan_whole_list (Config.mk "INFO" (some ["-i", "s.vtt"]) true none)
    ["-i", "v.mp4"] none ["-i", "s.vtt"] rfl rfl ⟨"s.vtt", by decide, by decide⟩

/-- C4 counterexample: at output mode hls, player startup does not spawn
an encoder — the match's wildcard arm aborts the task — so the claim that
every one of the four modes spawns an encoder without aborting fails at
hls. -/
theorem c4_counterexample :
    spawnEncoder OutputMode.hls = none ∧
    ¬ ∀ m : OutputMode, ∃ e, spawnEncoder m = some e ∧
        e.stdinPiped = true ∧ e.stderrPiped = true := by
  refine ⟨rfl, fun h => ?_⟩
  obtain ⟨e, he, -, -⟩ := h OutputMode.hls
  simp [spawnEncoder] at he

/-- C4 amended: for the output modes desktop, null and stream, player
startup spawns an encoder child for that mode and takes ownership of its
stdin and stderr; mode hls instead falls to the wildcard arm, which
aborts (the hls pipeline is driven by `write_hls`, not by `player`). -/
theorem c4_encoder_spawn_non_hls (m : OutputMode) (h : m ≠ OutputMode.hls) :
    ∃ e, spawnEncoder m = some e ∧ e.stdinPiped = true ∧ e.stderrPiped = true := by
  cases m
  · exact ⟨modeOutput, rfl, rfl, rfl⟩
  · exact absurd rfl h
  · exact ⟨modeOutput, rfl, rfl, rfl⟩
  · exact ⟨modeOutput, rfl, rfl, rfl⟩

/-- Witness for the amended C4 at mode desktop. -/
theorem c4_witness :
    OutputMode.desktop ≠ OutputMode.hls ∧
    ∃ e, spawnEncoder OutputMode.desktop = some e ∧
      e.stdinPiped = true ∧ e.stderrPiped = true :=
  ⟨by decide, c4_encoder_spawn_non_hls OutputMode.desktop (by decide)⟩

/-- Extracting encoder writes distributes over trace concatenation. -/
theorem writesOf_append (l1 l2 : List Act) :
    writesOf (l1 ++ l2) = writesOf l1 ++ writesOf l2 := by
  induction l1 with
  | nil => rfl
  | cons a l ih => cases a <;> simp [writesOf, ih]

/-- Extracting decoder reads distributes over trace concatenation. -/
theorem readsDOf_append (l1 l2 : List Act) :
    readsDOf (l1 ++ l2) = readsDOf l1 ++ readsDOf l2 := by
  induction l1 with
  | nil => rfl
  | cons a l ih => cases a <;> simp [readsDOf, ih]

/-- C1: byte-exact passthrough while ingest is inactive: with
`ingest_is_alive` observed false on every pump iteration, the pump's
action trace consists of read/write pairs — each chunk read from the
decoder stdout is written to the encoder writer, whole and in order,
before the next read is issued — until the zero-length read breaks the
loop; in particular the chunks written are exactly the chunks read before
EOF, with no insertion, deletion, or reordering, and the bytes written are
exactly the bytes read. -/
theorem c1_byte_exact_passthrough (cs : List (List Nat))
    (h : ∀ c ∈ cs, c ≠ []) :
    pumpRun false
        (cs.map (fun c => PumpIter.mk false true (RdRes.ok c))
          ++ [PumpIter.mk false true (RdRes.ok [])])
      = ((cs.flatMap fun c => [Act.readD c, Act.writeE c]) ++ [Act.readD []],
          false, PumpRes.broke)
    ∧ writesOf ((cs.flatMap fun c => [Act.readD c, Act.writeE c])
        ++ [Act.readD []]) = cs
    ∧ readsDOf ((cs.flatMap fun c => [Act.readD c, Act.writeE c])
        ++ [Act.readD []]) = cs ++ [[]]
    ∧ (writesOf ((cs.flatMap fun c => [Act.readD c, Act.writeE c])
        ++ [Act.readD []])).flatten = cs.flatten := by
  have hw : ∀ ds : List (List Nat),
      writesOf ((ds.flatMap fun c => [Act.readD c, Act.writeE c])
        ++ [Act.readD []]) = ds := by
    intro ds
    induction ds with
    | nil => rfl
    | cons d ds ih => simpa [writesOf_append, writesOf] using ih
  have hr : ∀ ds : List (List Nat),
      readsDOf ((ds.flatMap fun c => [Act.readD c, Act.writeE c])
        ++ [Act.readD []]) = ds ++ [[]] := by
    intro ds
    induction ds with
    | nil => rfl
    | cons d ds ih => simpa [readsDOf_append, readsDOf] using ih
  refine ⟨?_, hw cs, hr cs, by rw [hw cs]⟩
  induction cs with
  | nil => rfl
  | cons c cs ih =>
    have hc : c.isEmpty = false := by
      rcases c with _ | ⟨a, l⟩
      · exact absurd rfl (h [] (by simp))
      · rfl
    have ih2 := ih (fun d hd => h d (List.mem_cons_of_mem c hd))
    simp only [List.map_cons, List.cons_append, pumpRun, pumpStep, hc]
    simp only [Bool.false_eq_true, if_false, ite_false, List.flatMap_cons,
      List.cons_append, List.append_assoc, List.append_eq]
    rw [ih2]

/-- Witness for C1 with the two concrete chunks [1, 2] and [3]. -/
theorem c1_witness :
    (∀ c ∈ ([[1, 2], [3]] : List (List Nat)), c ≠ []) ∧
    (pumpRun false
        (([[1, 2], [3]] : List (List Nat)).map
            (fun c => PumpIter.mk false true (RdRes.ok c))
          ++ [PumpIter.mk false true (RdRes.ok [])])
      = ((([[1, 2], [3]] : List (List Nat)).flatMap
            fun c => [Act.readD c, Act.writeE c]) ++ [Act.readD []],
          false, PumpRes.broke)
    ∧ writesOf ((([[1, 2], [3]] : List (List Nat)).flatMap
        fun c => [Act.readD c, Act.writeE c]) ++ [Act.readD []]) = [[1, 2], [3]]
    ∧ readsDOf ((([[1, 2], [3]] : List (List Nat)).flatMap
        fun c => [Act.readD c, Act.writeE c]) ++ [Act.readD []])
          = [[1, 2], [3]] ++ [[]]
    ∧ (writesOf ((([[1, 2], [3]] : List (List Nat)).flatMap
        fun c => [Act.readD c, Act.writeE c]) ++ [Act.readD []])).flatten
          = ([[1, 2], [3]] : List (List Nat)).flatten) :=
  ⟨by decide, c1_byte_exact_passthrough [[1, 2], [3]] (by decide)⟩

/-- C6: the ingest preemption protocol.  When a pump iteration observes
`ingest_is_alive` true while `live_on` is false, its first three actions —
performed before anything else, in particular before any read from the
ingest stream — are `manager.stop(Decoder)`, setting `live_on`, and
storing true into `list_init`, in that order, and the iteration leaves
`live_on` true.  Conversely, when `ingest_is_alive` is observed false
while `live_on` is true, the iteration clears `live_on` and breaks the
pump loop without reading from the decoder. -/
theorem c6_ingest_preemption (liveOn : Bool) (it : PumpIter) :
    (it.ingestAlive = true → liveOn = false →
      (∃ tl, (pumpStep liveOn it).1
          = Act.stopDec :: Act.setLiveOn :: Act.storeListInit :: tl)
        ∧ (pumpStep liveOn it).2.1 = true)
    ∧ (it.ingestAlive = false → liveOn = true →
      pumpStep liveOn it = ([Act.setLiveOff], false, SOut.brk)
        ∧ ∀ c, Act.readD c ∉ (pumpStep liveOn it).1) := by
  obtain ⟨ia, ip, rd⟩ := it
  constructor
  · rintro rfl rfl
    rcases rd with c | _
    · cases c <;> cases ip <;> exact ⟨⟨_, rfl⟩, rfl⟩
    · cases ip <;> exact ⟨⟨_, rfl⟩, rfl⟩
  · rintro rfl rfl
    refine ⟨rfl, ?_⟩
    intro c
    simp [pumpStep]

/-- Witness for C6: the live transition at a concrete ingest read, and
the reverse transition at a concrete iteration. -/
theorem c6_witness :
    ((∃ tl, (pumpStep false (PumpIter.mk true true (RdRes.ok [5]))).1
        = Act.stopDec :: Act.setLiveOn :: Act.storeListInit :: tl)
      ∧ (pumpStep false (PumpIter.mk true true (RdRes.ok [5]))).2.1 = true)
    ∧ (pumpStep true (PumpIter.mk false true (RdRes.ok [5]))
        = ([Act.setLiveOff], false, SOut.brk)
      ∧ ∀ c, Act.readD c ∉ (pumpStep true (PumpIter.mk false true (RdRes.ok [5]))).1) :=
  ⟨(c6_ingest_preemption false (PumpIter.mk true true (RdRes.ok [5]))).1 rfl rfl,
    (c6_ingest_preemption true (PumpIter.mk false true (RdRes.ok [5]))).2 rfl rfl⟩

/-- C3 counterexample: at a concrete ingest-live pump iteration that
reads the one-byte chunk [0], the action trace is acquire, read, write,
release — the lock release comes only after the write to the encoder, so
the claim that the lock is released before that write and never held
during it fails. -/
theorem c3_counterexample :
    (pumpStep true (PumpIter.mk true true (RdRes.ok [0]))).1
      = [Act.lockAcq, Act.readI [0], Act.writeE [0], Act.lockRel]
    ∧ ¬ relBeforeWrite (pumpStep true (PumpIter.mk true true (RdRes.ok [0]))).1 := by
  exact ⟨rfl, by decide⟩

/-- C3 amended: in every ingest-live pump iteration that reads a
non-empty chunk, the `ingest_stdout` lock is acquired before the read and
released only after the chunk's write to the encoder: the guard's scope
encloses the write, so the lock is held during that write. -/
theorem c3_lock_held_across_write (liveOn : Bool) (it : PumpIter)
    (c : List Nat) (h1 : it.ingestAlive = true) (h2 : it.ingestPresent = true)
    (h3 : it.rd = RdRes.ok c) (h4 : c ≠ []) :
    ∃ pre, (pumpStep liveOn it).1
      = pre ++ [Act.lockAcq, Act.readI c, Act.writeE c, Act.lockRel] := by
  obtain ⟨ia, ip, rd⟩ := it
  subst h1 h2 h3
  have hc : c.isEmpty = false := by
    rcases c with _ | ⟨a, l⟩
    · exact absurd rfl h4
    · rfl
  cases liveOn
  · exact ⟨[Act.stopDec, Act.setLiveOn, Act.storeListInit], by simp [pumpStep, hc]⟩
  · exact ⟨[], by simp [pumpStep, hc]⟩

/-- Witness for the amended C3 at a concrete chunk. -/
theorem c3_witness :
    ∃ pre, (pumpStep true (PumpIter.mk true true (RdRes.ok [9]))).1
      = pre ++ [Act.lockAcq, Act.readI [9], Act.writeE [9], Act.lockRel] :=
  c3_lock_held_across_write true (PumpIter.mk true true (RdRes.ok [9])) [9]
    rfl rfl rfl (by decide)

/-- C2 counterexample: with a first node whose decoder spawn fails, the
player task returns an error and the second node is never published —
and likewise when the first node's decoder read errors — contradicting
the claim that these failures are recoverable and the outer loop
advances to the next node. -/
theorem c2_counterexample :
    ((playerLoop (Config.mk "INFO" none false none) false
        [LoopIter.mk (Node.mk (some ["-i", "a.mp4"]) false none) true false [],
          LoopIter.mk (Node.mk (some ["-i", "b.mp4"]) false none) true true []]).2
        = false
      ∧ OEvent.publish (Node.mk (some ["-i", "b.mp4"]) false none)
          ∉ (playerLoop (Config.mk "INFO" none false none) false
        [LoopIter.mk (Node.mk (some ["-i", "a.mp4"]) false none) true false [],
          LoopIter.mk (Node.mk (some ["-i", "b.mp4"]) false none) true true []]).1)
    ∧ ((playerLoop (Config.mk "INFO" none false none) false
        [LoopIter.mk (Node.mk (some ["-i", "a.mp4"]) false none) true true
            [PumpIter.mk false true RdRes.err],
          LoopIter.mk (Node.mk (some ["-i", "b.mp4"]) false none) true true []]).2
        = false
      ∧ OEvent.publish (Node.mk (some ["-i", "b.mp4"]) false none)
          ∉ (playerLoop (Config.mk "INFO" none false none) false
        [LoopIter.mk (Node.mk (some ["-i", "a.mp4"]) false none) true true
            [PumpIter.mk false true RdRes.err],
          LoopIter.mk (Node.mk (some ["-i", "b.mp4"]) false none) true true []]).1) := by
  exact ⟨⟨rfl, by decide⟩, ⟨rfl, by decide⟩⟩

/-- C2 amended: decoder spawn failure and decoder read error are fatal,
not recoverable: either one makes the player task return an error through
the `?` operator, and the outer loop does not advance to the next node. -/
theorem c2_decoder_errors_fatal (cfg : Config) (liveOn : Bool)
    (it : LoopIter) (rest : List LoopIter) (cmd : List String)
    (ha : it.alive = true) (hc : it.node.cmd = some cmd)
    (hs : it.node.skip = false) :
    (it.spawnOk = false →
      playerLoop cfg liveOn (it :: rest)
        = ([OEvent.publish it.node, OEvent.spawnFailed], false))
    ∧ ((pumpRun liveOn it.script).2.2 = PumpRes.errored → it.spawnOk = true →
      playerLoop cfg liveOn (it :: rest)
        = (OEvent.publish it.node
            :: OEvent.spawnDec decoderProgram (buildDecCmd cfg cmd it.node.filter)
            :: (pumpRun liveOn it.script).1.map OEvent.pact, false)) := by
  constructor
  · intro hsp
    simp [playerLoop, ha, hc, hs, hsp]
  · intro hp hsp
    simp [playerLoop, ha, hc, hs, hsp, hp]

/-- Witness for the amended C2: a concrete failed spawn and a concrete
failed decoder read. -/
theorem c2_witness :
    (playerLoop (Config.mk "INFO" none false none) false
        [LoopIter.mk (Node.mk (some ["-i", "a.mp4"]) false none) true false []]
      = ([OEvent.publish (Node.mk (some ["-i", "a.mp4"]) false none),
          OEvent.spawnFailed], false))
    ∧ (playerLoop (Config.mk "INFO" none false none) false
        [LoopIter.mk (Node.mk (some ["-i", "a.mp4"]) false none) true true
          [PumpIter.mk false true RdRes.err]]
      = (OEvent.publish (Node.mk (some ["-i", "a.mp4"]) false none)
          :: OEvent.spawnDec decoderProgram
              (buildDecCmd (Config.mk "INFO" none false none) ["-i", "a.mp4"]
                (Node.mk (some ["-i", "a.mp4"]) false none).filter)
          :: (pumpRun false [PumpIter.mk false true RdRes.err]).1.map OEvent.pact,
          false)) :=
  ⟨(c2_decoder_errors_fatal (Config.mk "INFO" none false none) false
      (LoopIter.mk (Node.mk (some ["-i", "a.mp4"]) false none) true false [])
      [] ["-i", "a.mp4"] rfl rfl rfl).1 rfl,
    (c2_decoder_errors_fatal (Config.mk "INFO" none false none) false
      (LoopIter.mk (Node.mk (some ["-i", "a.mp4"]) false none) true true
        [PumpIter.mk false true RdRes.err])
      [] ["-i", "a.mp4"] rfl rfl rfl).2 rfl rfl⟩

/-- Once the loop reaches an iteration whose top-of-iteration check
observes `is_alive` false, everything after that iteration is irrelevant:
the run equals the run that ends at that iteration. -/
theorem playerLoop_stop_tail (cfg : Config) (it : LoopIter)
    (h : it.alive = false) :
    ∀ pre : List LoopIter, ∀ liveOn rest,
      playerLoop cfg liveOn (pre ++ it :: rest)
        = playerLoop cfg liveOn (pre ++ [it]) := by
  intro pre
  induction pre with
  | nil =>
    intro liveOn rest
    simp [playerLoop, h]
  | cons p ps ih =>
    intro liveOn rest
    simp only [List.cons_append, playerLoop]
    by_cases hpa : p.alive = false
    · simp [hpa]
    · simp only [hpa, if_false, ite_false]
      cases hcmd : p.node.cmd with
      | none => rfl
      | some cmd =>
        by_cases hsk : p.node.skip
        · simp [hsk, ih]
        · by_cases hsp : p.spawnOk = false
          · simp [hsk, hsp]
          · cases hpr : (pumpRun liveOn p.script).2.2 <;>
              simp [hsk, hsp, hpr, ih]

/-- C5: no decoder after stop.  In every run, once an iteration's
top-of-iteration check observes `is_alive` false, nothing that comes
after that iteration contributes any event — in particular no decoder is
ever spawned afterwards: the loop breaks at that very iteration, whose
only event is publishing the node, and the player returns Ok. -/
theorem c5_no_decoder_after_stop (cfg : Config) (liveOn : Bool)
    (pre rest : List LoopIter) (it : LoopIter) (h : it.alive = false) :
    playerLoop cfg liveOn (pre ++ it :: rest)
      = playerLoop cfg liveOn (pre ++ [it])
    ∧ playerLoop cfg liveOn (it :: rest) = ([OEvent.publish it.node], true)
    ∧ ∀ e ∈ (playerLoop cfg liveOn (it :: rest)).1, e.isSpawn = false := by
  refine ⟨playerLoop_stop_tail cfg it h pre liveOn rest, ?_, ?_⟩
  · simp [playerLoop, h]
  · simp [playerLoop, h, OEvent.isSpawn]

/-- Witness for C5: a played node, then an iteration that observes the
cleared flag, then a node that must never be reached. -/
theorem c5_witness :
    playerLoop (Config.mk "INFO" none false none) false
        ([LoopIter.mk (Node.mk (some ["-i", "a.mp4"]) false none) true true
            [PumpIter.mk false true (RdRes.ok [])]]
          ++ LoopIter.mk (Node.mk (some ["-i", "b.mp4"]) false none) false true []
            :: [LoopIter.mk (Node.mk (some ["-i", "c.mp4"]) false none) true true []])
      = playerLoop (Config.mk "INFO" none false none) false
        ([LoopIter.mk (Node.mk (some ["-i", "a.mp4"]) false none) true true
            [PumpIter.mk false true (RdRes.ok [])]]
          ++ [LoopIter.mk (Node.mk (some ["-i", "b.mp4"]) false none) false true []])
    ∧ playerLoop (Config.mk "INFO" none false none) false
        (LoopIter.mk (Node.mk (some ["-i", "b.mp4"]) false none) false true []
          :: [LoopIter.mk (Node.mk (some ["-i", "c.mp4"]) false none) true true []])
      = ([OEvent.publish (Node.mk (some ["-i", "b.mp4"]) false none)], true)
    ∧ ∀ e ∈ (playerLoop (Config.mk "INFO" none false none) false
        (LoopIter.mk (Node.mk (some ["-i", "b.mp4"]) false none) false true []
          :: [LoopIter.mk (Node.mk (some ["-i", "c.mp4"]) false none) true true []])).1,
        e.isSpawn = false :=
  c5_no_decoder_after_stop (Config.mk "INFO" none false none) false
    [LoopIter.mk (Node.mk (some ["-i", "a.mp4"]) false none) true true
      [PumpIter.mk false true (RdRes.ok [])]]
    [LoopIter.mk (Node.mk (some ["-i", "c.mp4"]) false none) true true []]
    (LoopIter.mk (Node.mk (some ["-i", "b.mp4"]) false none) false true []) rfl

/-- C8: for every node yielded by the source iterator, publishing it into
`current_media` is the iteration's first event, before the `is_alive`,
command-absent and skip checks run; hence the end-of-schedule sentinel
node (command absent) and a node yielded after `is_alive` was cleared are
also published, even though the loop then breaks with no decoder spawned
for them. -/
theorem c8_publish_before_checks (cfg : Config) (liveOn : Bool)
    (it : LoopIter) (rest : List LoopIter) :
    (∃ tl, (playerLoop cfg liveOn (it :: rest)).1
        = OEvent.publish it.node :: tl)
    ∧ (it.alive = true → it.node.cmd = none →
        playerLoop cfg liveOn (it :: rest) = ([OEvent.publish it.node], true))
    ∧ (it.alive = false →
        playerLoop cfg liveOn (it :: rest) = ([OEvent.publish it.node], true)) := by
  refine ⟨?_, ?_, ?_⟩
  · by_cases ha : it.alive = false
    · exact ⟨[], by simp [playerLoop, ha]⟩
    · cases hc : it.node.cmd with
      | none => exact ⟨[], by simp [playerLoop, ha, hc]⟩
      | some cmd =>
        by_cases hsk : it.node.skip
        · exact ⟨(playerLoop cfg liveOn rest).1,
            by simp [playerLoop, ha, hc, hsk]⟩
        · by_cases hsp : it.spawnOk = false
          · exact ⟨[OEvent.spawnFailed],
              by simp [playerLoop, ha, hc, hsk, hsp]⟩
          · cases hpr : (pumpRun liveOn it.script).2.2
            · exact ⟨OEvent.spawnDec decoderProgram (buildDecCmd cfg cmd it.node.filter)
                :: ((pumpRun liveOn it.script).1.map OEvent.pact
                  ++ (playerLoop cfg (pumpRun liveOn it.script).2.1 rest).1),
                by simp [playerLoop, ha, hc, hsk, hsp, hpr]⟩
            · exact ⟨OEvent.spawnDec decoderProgram (buildDecCmd cfg cmd it.node.filter)
                :: (pumpRun liveOn it.script).1.map OEvent.pact,
                by simp [playerLoop, ha, hc, hsk, hsp, hpr]⟩
            · exact ⟨OEvent.spawnDec decoderProgram (buildDecCmd cfg cmd it.node.filter)
                :: ((pumpRun liveOn it.script).1.map OEvent.pact
                  ++ (playerLoop cfg (pumpRun liveOn it.script).2.1 rest).1),
                by simp [playerLoop, ha, hc, hsk, hsp, hpr]⟩
  · intro ha hc
    simp [playerLoop, ha, hc]
  · intro ha
    simp [playerLoop, ha]

/-- Witness for C8: the sentinel node (command absent) is published with
no decoder spawned, and so is a node seen after `is_alive` was cleared. -/
theorem c8_witness :
    ((∃ tl, (playerLoop (Config.mk "INFO" none false none) false
        [LoopIter.mk (Node.mk none false none) true true []]).1
        = OEvent.publish (Node.mk none false none) :: tl)
      ∧ playerLoop (Config.mk "INFO" none false none) false
          [LoopIter.mk (Node.mk none false none) true true []]
        = ([OEvent.publish (Node.mk none false none)], true))
    ∧ playerLoop (Config.mk "INFO" none false none) false
        [LoopIter.mk (Node.mk (some ["-i", "a.mp4"]) false none) false true []]
      = ([OEvent.publish (Node.mk (some ["-i", "a.mp4"]) false none)], true) :=
  ⟨⟨(c8_publish_before_checks (Config.mk "INFO" none false none) false
      (LoopIter.mk (Node.mk none false none) true true []) []).1,
    (c8_publish_before_checks (Config.mk "INFO" none false none) false
      (LoopIter.mk (Node.mk none false none) true true []) []).2.1 rfl rfl⟩,
    (c8_publish_before_checks (Config.mk "INFO" none false none) false
      (LoopIter.mk (Node.mk (some ["-i", "a.mp4"]) false none) false true []) []).2.2 rfl⟩

/-- One buffered write preserves the written byte stream: delivered bytes
followed by still-buffered bytes equal the previous stream plus the new
chunk. -/
theorem writeAllStep_concat (s : WState) (c : List Nat) :
    (writeAllStep s c).delivered ++ (writeAllStep s c).buffered
      = s.delivered ++ s.buffered ++ c := by
  unfold writeAllStep
  by_cases h1 : bufCap < s.buffered.length + c.length
  · by_cases h2 : bufCap ≤ c.length <;> simp [h1, h2, List.append_assoc]
  · by_cases h2 : bufCap ≤ c.length
    · have hb : s.buffered = [] := by
        have hl : s.buffered.length = 0 := by omega
        exact List.length_eq_zero.mp hl
      have h3 : ¬ bufCap < c.length := by
        rw [hb] at h1
        simpa using h1
      simp [h1, h2, h3, hb]
    · simp [h1, h2, List.append_assoc]

/-- Running the player's write_all-only operation sequence keeps all
written bytes split between delivered and buffered, in order. -/
theorem runWOps_writes_concat (writes : List (List Nat)) :
    ∀ s : WState,
      (runWOps s (playerWriterOps writes)).delivered
          ++ (runWOps s (playerWriterOps writes)).buffered
        = s.delivered ++ s.buffered ++ writes.flatten := by
  induction writes with
  | nil =>
    intro s
    simp [playerWriterOps, runWOps]
  | cons w ws ih =>
    intro s
    simp only [playerWriterOps, List.map_cons, runWOps] at ih ⊢
    rw [ih (writeAllStep s w), writeAllStep_concat]
    simp [List.append_assoc]

/-- C10: the player only ever issues `write_all` on the buffered encoder
writer and never a flush, up to and including shutdown before `stop_all`;
consequently the whole written byte stream splits into the delivered part
and the part still held in the writer's buffer, and whenever that buffer
is non-empty after the last write, the bytes delivered to the encoder
child's stdin before it is stopped fall short of the bytes written. -/
theorem c10_writer_never_flushed (writes : List (List Nat)) :
    (∀ op ∈ playerWriterOps writes, op ≠ WOp.flushOp)
    ∧ (runWOps (WState.mk [] []) (playerWriterOps writes)).delivered
        ++ (runWOps (WState.mk [] []) (playerWriterOps writes)).buffered
      = writes.flatten
    ∧ ((runWOps (WState.mk [] []) (playerWriterOps writes)).buffered ≠ [] →
        (runWOps (WState.mk [] []) (playerWriterOps writes)).delivered
          ≠ writes.flatten) := by
  have hcat := runWOps_writes_concat writes (WState.mk [] [])
  simp only [List.nil_append] at hcat
  refine ⟨?_, hcat, ?_⟩
  · intro op hop
    simp only [playerWriterOps, List.mem_map] at hop
    obtain ⟨c, -, rfl⟩ := hop
    simp
  · intro hb hd
    rw [hd] at hcat
    have hlen := congrArg List.length hcat
    simp only [List.length_append] at hlen
    exact hb (List.length_eq_zero.mp (by omega))

/-- Witness for C10: a three-byte write stays in the writer's buffer, and
the delivered stream misses it. -/
theorem c10_witness :
    (runWOps (WState.mk [] []) (playerWriterOps [[1, 2, 3]])).buffered ≠ []
    ∧ (runWOps (WState.mk [] []) (playerWriterOps [[1, 2, 3]])).delivered
        ≠ ([[1, 2, 3]] : List (List Nat)).flatten :=
  ⟨by decide, (c10_writer_never_flushed [[1, 2, 3]]).2.2 (by decide)⟩

end FFPlayout
